import Mathlib

/-!
Verification development for the retrieval-augmented question-answering agent
(query analysis → routing → multi-source retrieval → reranking → synthesis).

The Python modules are shallowly embedded: Python floats become rationals
(`ℚ`), Python `None` becomes `Option.none`, exceptions become `Except`, and
every network- or model-backed call (cross-encoder scoring, LLM chains,
retrieval backends) becomes an explicit oracle parameter.  Mutation of
`ContextDoc.rerank_score` is modelled by rebuilding the document with the new
score.  Python's `sorted(..., reverse=True)` (a stable sort) is modelled by
`List.mergeSort` with the reversed comparison, which is also stable.
-/

/-- `src/src/retrieval/retrievers/base_retriever.py` (new-generation schema,
see the design document §3): one candidate passage from one backend.
Backend-specific `metadata` is carried as a string association list; richer
payload values do not affect any verified property. -/
structure RetrievedDocument where
  content : String
  source : String
  score : ℚ
  metadata : List (String × String) := []
deriving DecidableEq, Repr

/-- The outcome of one backend invocation (design document §3). -/
structure RetrievalResult where
  query : String
  documents : List RetrievedDocument
  provider : String
  latency : Option ℚ := none
  metadata : List (String × String) := []
deriving DecidableEq, Repr

/-- `src/src/agent/reranker.py` lines 24-34 (an identical dataclass appears in
`reranker1.py` lines 11-21): the Reranker's unified context representation.
The `metadata` dict (merged result-level/document-level extras) is omitted:
no claim concerns it and it never influences scoring or ordering. -/
structure ContextDoc where
  content : String
  source : String
  retrieval_score : Option ℚ := none
  rerank_score : Option ℚ := none
deriving DecidableEq, Repr

/-- `reranker.py` lines 37-41 / `reranker1.py` lines 24-28. -/
structure RerankResult where
  query : String
  contexts : List ContextDoc
deriving DecidableEq, Repr

/-- Reranker constructor configuration (`reranker.py` lines 164-192):
`use_retrieval_score`, `alpha` and `batch_size`; the model name and device
only select the scoring oracle. -/
structure Reranker where
  use_retrieval_score : Bool := true
  alpha : ℚ := 7/10
  batch_size : Nat := 16
deriving DecidableEq, Repr

namespace reranker

/-- `reranker.py` lines 44-124, `gather_raw_contexts`: flatten
`RetrievalResult`s into `ContextDoc`s, skipping documents with empty
(falsy) content; `source` falls back to the result's provider and then to
"unknown" when falsy.  The `res is None` / `hasattr` guards and the
metadata merge (document-level keys overriding result-level keys) concern
fields not modelled here. -/
def gather_raw_contexts (retrieval_results : List RetrievalResult) : List ContextDoc :=
  retrieval_results.flatMap fun res =>
    res.documents.filterMap fun doc =>
      if doc.content = "" then none
      else
        some { content := doc.content
               source := if doc.source = "" then
                           (if res.provider = "" then "unknown" else res.provider)
                         else doc.source
               retrieval_score := some doc.score
               rerank_score := none }

/-- `min(scores)` on a non-empty Python list, as a fold (the `[]` case is
never reached by the caller). -/
def pool_lo : List ℚ → ℚ
  | [] => 0
  | s :: rest => rest.foldl min s

/-- `max(scores)` on a non-empty Python list, as a fold. -/
def pool_hi : List ℚ → ℚ
  | [] => 0
  | s :: rest => rest.foldl max s

/-- `reranker.py` lines 127-153, `_normalize_retrieval_scores`: linearly
normalize `retrieval_score` to [0,1] across the pool.  No scores present →
everything 0; all present scores within `1e-9` → everything 1; otherwise
`(s - lo) / (hi - lo)`, with missing scores mapped to 0.  The Python dict
keyed by `0..len-1` is modelled as a function on indices (`math.isnan`
filtering is vacuous over `ℚ`, which has no NaN). -/
def _normalize_retrieval_scores (contexts : List ContextDoc) : Nat → ℚ :=
  let scores := contexts.filterMap (·.retrieval_score)
  match scores with
  | [] => fun _ => 0
  | s :: rest =>
    let lo := pool_lo (s :: rest)
    let hi := pool_hi (s :: rest)
    if hi - lo < 1/1000000000 then fun _ => 1
    else fun i =>
      match (contexts.get? i).bind (·.retrieval_score) with
      | none => 0
      | some sc => (sc - lo) / (hi - lo)

/-- `reranker.py` lines 194-221, `_score_batch`: score one batch with the
cross-encoder; with the model call abstracted into the oracle `ce`, the
batch's logits are the per-document scores. -/
def _score_batch (ce : String → String → ℚ) (query : String)
    (docs : List ContextDoc) : List ℚ :=
  docs.map fun d => ce query d.content

/-- `reranker.py` lines 236-239: the batching loop
`for i in range(0, len(contexts), batch_size)` that extends `ce_scores` one
batch at a time (`reranker1.py` lines 195-198 is the same loop).  A zero
step raises in Python; the model returns `[]` in that unreachable case. -/
def _score_loop (ce : String → String → ℚ) (query : String) (bs : Nat) :
    List ContextDoc → List ℚ
  | [] => []
  | d :: ds =>
    if _h : bs = 0 then []
    else
      _score_batch ce query ((d :: ds).take bs) ++
        _score_loop ce query bs ((d :: ds).drop bs)
termination_by l => l.length
decreasing_by
  simp only [List.length_drop, List.length_cons]
  omega

/-- `reranker.py` lines 241-249: optional fusion of the cross-encoder scores
with the normalized retrieval scores,
`fused = alpha * ce + (1 - alpha) * norm_ret[i]`. -/
def fused_scores (r : Reranker) (ce : String → String → ℚ) (query : String)
    (contexts : List ContextDoc) : List ℚ :=
  let ce_scores := _score_loop ce query r.batch_size contexts
  if r.use_retrieval_score then
    let norm_ret := _normalize_retrieval_scores contexts
    ce_scores.enum.map fun p => r.alpha * p.2 + (1 - r.alpha) * norm_ret p.1
  else
    ce_scores

/-- `reranker.py` lines 252-253: write the fused score back onto each
document (`doc.rerank_score = float(s)` under `zip(contexts, fused_scores)`). -/
def scored_pool (r : Reranker) (ce : String → String → ℚ) (query : String)
    (contexts : List ContextDoc) : List ContextDoc :=
  contexts.zipWith (fun d s => { d with rerank_score := some s })
    (fused_scores r ce query contexts)

/-- The sort key of `reranker.py` line 257:
`d.rerank_score if d.rerank_score is not None else -1e18`. -/
def key_of (d : ContextDoc) : ℚ :=
  d.rerank_score.getD (-(10^18))

/-- The comparison realising `sorted(..., key=key_of, reverse=True)`:
`a` may precede `b` iff `key_of b ≤ key_of a`. -/
def doc_le (a b : ContextDoc) : Bool :=
  decide (key_of b ≤ key_of a)

/-- `reranker.py` lines 255-259: the stable descending sort of the scored
pool. -/
def sorted_pool (r : Reranker) (ce : String → String → ℚ) (query : String)
    (contexts : List ContextDoc) : List ContextDoc :=
  (scored_pool r ce query contexts).mergeSort doc_le

/-- `reranker.py` lines 223-264, `Reranker.rerank`: empty pools short-circuit
before any scoring; otherwise score, optionally fuse, sort descending and
truncate to `top_k`. -/
def rerank (r : Reranker) (ce : String → String → ℚ) (query : String)
    (contexts : List ContextDoc) (top_k : Nat) : RerankResult :=
  if contexts = [] then { query := query, contexts := [] }
  else { query := query, contexts := (sorted_pool r ce query contexts).take top_k }

/-- `reranker.py` lines 266-276, `Reranker.rerank_from_results`. -/
def rerank_from_results (r : Reranker) (ce : String → String → ℚ) (query : String)
    (retrieval_results : List RetrievalResult) (top_k : Nat) : RerankResult :=
  rerank r ce query (gather_raw_contexts retrieval_results) top_k

end reranker

namespace reranker1

/-- `reranker1.py` lines 31-105, `gather_raw_contexts`: same flattening as
`reranker.py` over the typed schema.  Its extra `doc is None` skip and the
`page_content` / `text` attribute fallbacks concern foreign document types;
on `RetrievedDocument` values `getattr` always finds `content`, so the
fallbacks never fire. -/
def gather_raw_contexts (retrieval_results : List RetrievalResult) : List ContextDoc :=
  retrieval_results.flatMap fun res =>
    res.documents.filterMap fun doc =>
      if doc.content = "" then none
      else
        some { content := doc.content
               source := if doc.source = "" then
                           (if res.provider = "" then "unknown" else res.provider)
                         else doc.source
               retrieval_score := some doc.score
               rerank_score := none }

/-- Python's `math.isclose(a, b)` at its defaults
(`rel_tol = 1e-9`, `abs_tol = 0.0`):
`|a - b| <= max(rel_tol * max(|a|, |b|), abs_tol)`. -/
def isclose (a b : ℚ) : Bool :=
  decide (|a - b| ≤ (1/1000000000) * max |a| |b|)

/-- `reranker1.py` lines 200-223: the fusion step of `Reranker.rerank`.
If every `retrieval_score` is `None`, no fusion happens and the raw
cross-encoder scores are returned; otherwise `None` scores are replaced by
the pool minimum, scores are normalized (uniformly 0 when
`math.isclose(max_s, min_s)`), and
`fused = alpha * ce + (1 - alpha) * nr` is taken pairwise. -/
def fused_scores (r : Reranker) (ce : String → String → ℚ) (query : String)
    (contexts : List ContextDoc) : List ℚ :=
  let ce_scores := reranker._score_loop ce query r.batch_size contexts
  if r.use_retrieval_score then
    let ret_scores := contexts.map (·.retrieval_score)
    if ret_scores.any (·.isSome) then
      match ret_scores.filterMap id with
      | [] => ce_scores
      | v :: vs =>
        let min_s := reranker.pool_lo (v :: vs)
        let max_s := reranker.pool_hi (v :: vs)
        let norm_ret :=
          if isclose max_s min_s then ret_scores.map fun _ => (0 : ℚ)
          else ret_scores.map fun s => ((s.getD min_s) - min_s) / (max_s - min_s)
        (ce_scores.zip norm_ret).map fun p => r.alpha * p.1 + (1 - r.alpha) * p.2
    else ce_scores
  else ce_scores

/-- `reranker1.py` lines 226-227: score write-back. -/
def scored_pool (r : Reranker) (ce : String → String → ℚ) (query : String)
    (contexts : List ContextDoc) : List ContextDoc :=
  contexts.zipWith (fun d s => { d with rerank_score := some s })
    (fused_scores r ce query contexts)

/-- `reranker1.py` lines 229-233: the stable descending sort (same key and
order as `reranker.py` lines 255-259). -/
def sorted_pool (r : Reranker) (ce : String → String → ℚ) (query : String)
    (contexts : List ContextDoc) : List ContextDoc :=
  (scored_pool r ce query contexts).mergeSort reranker.doc_le

/-- `reranker1.py` lines 182-238, `Reranker.rerank`.  The scoring loop
(lines 195-198) is the same chunked batching as `reranker.py`, shared here
as `reranker._score_loop`. -/
def rerank (r : Reranker) (ce : String → String → ℚ) (query : String)
    (contexts : List ContextDoc) (top_k : Nat) : RerankResult :=
  if contexts = [] then { query := query, contexts := [] }
  else { query := query, contexts := (sorted_pool r ce query contexts).take top_k }

/-- `reranker1.py` lines 240-250, `Reranker.rerank_from_results`. -/
def rerank_from_results (r : Reranker) (ce : String → String → ℚ) (query : String)
    (retrieval_results : List RetrievalResult) (top_k : Nat) : RerankResult :=
  rerank r ce query (gather_raw_contexts retrieval_results) top_k

end reranker1

namespace router

/-- A value stored in the dictionary `Router.route` returns: the tool name
and reasoning are strings, `retrieval_metadata` is a nested dict, and a
string list is what the Orchestrator's policy layer expects to find. -/
inductive RouteVal where
  | str (s : String)
  | metadata (m : List (String × String))
  | strList (l : List String)
deriving DecidableEq, Repr

/-- `router.py` lines 38-46, the structured output schema of the routing
LLM call (`selected_tool` may be null). -/
structure RoutingOutput where
  selected_tool : Option String
  reasoning : String
deriving DecidableEq, Repr

/-- The fields of the analysis dict that `Router.route`
(`router.py` lines 157-159) reads with `.get`: a missing key yields `None`. -/
structure AnalysisInput where
  rewritten_query : Option String := none
  raw_query : Option String := none
  keywords : List String := []
  domain_areas : List String := []
deriving DecidableEq, Repr

/-- Python's `str.lower()`, as a per-character map over the string's
characters (extensionally `String.toLower`, whose byte-position-based
implementation does not reduce inside the kernel). -/
def str_lower (s : String) : String :=
  String.mk (s.data.map Char.toLower)

/-- Python's `a or b` on an optional string and a fallback: `None` and `""`
are falsy. -/
def py_or_str (a : Option String) (b : String) : String :=
  match a with
  | none => b
  | some s => if s = "" then b else s

/-- Python truthiness of an optional string (`if routing_result.selected_tool:`,
`if not best_tool:`). -/
def py_truthy (a : Option String) : Bool :=
  match a with
  | none => false
  | some s => s ≠ ""

/-- The dict literal returned at `router.py` lines 222-226 (and, with
`web_search` and an error message, at lines 229-235). -/
def route_dict (tool reasoning : String) (md : List (String × String)) :
    List (String × RouteVal) :=
  [("selected_tool", RouteVal.str tool),
   ("reasoning", RouteVal.str reasoning),
   ("retrieval_metadata", RouteVal.metadata md)]

/-- `router.py` lines 218-221: the final fallback block.  When `best_tool`
is falsy it becomes "web_search" and the reasoning is replaced, while
`retrieval_metadata` keeps whatever was extracted. -/
def finalize (best_tool : Option String) (reasoning : String)
    (md : List (String × String)) : List (String × RouteVal) :=
  if py_truthy best_tool then route_dict (best_tool.getD "") reasoning md
  else route_dict "web_search" "No suitable tool found; defaulting to 'web_search'." md

/-- `router.py` lines 134-235, `Router.route`.

Oracles: `tool_info` is the `(name, declared domain list)` registry view
built by `_get_available_tool_info`; `llm` is the `routing_chain.invoke`
call, whose raised exception is the only one reaching the method's
`except` branch (lines 228-235); `meta` is `_extract_retrieval_metadata`,
total because it catches internally and returns `{}` (lines 109-132).

Tier 1 (lines 167-178) picks the first registered tool whose domain list
contains some lowercased query domain; tier 2 (lines 197-216) asks the LLM
and keeps its choice when truthy; lines 218-221 default to "web_search". -/
def route (tool_info : List (String × List String))
    (llm : Except String RoutingOutput)
    (meta : String → String → List (String × String))
    (analysis : AnalysisInput) : List (String × RouteVal) :=
  let query := py_or_str analysis.rewritten_query (py_or_str analysis.raw_query "")
  match tool_info.find? (fun t => analysis.domain_areas.any fun d => t.2.contains (str_lower d)) with
  | some (name, _) =>
    finalize (some name) ("Exact domain match found for tool '" ++ name ++ "'.")
      (meta name query)
  | none =>
    match llm with
    | .error e =>
      route_dict "web_search"
        ("Error in routing: " ++ e ++ ". Defaulting to 'web_search'.") []
    | .ok out =>
      if py_truthy out.selected_tool then
        finalize out.selected_tool out.reasoning (meta (out.selected_tool.getD "") query)
      else
        finalize none "" []

end router

namespace synthesizer

/-- A citation entry produced by `SynthesizedResponse.to_sources`
(`synthesizer.py` lines 35-49). -/
structure SourceItem where
  title : String
  score : ℚ
  content : String
deriving DecidableEq, Repr

/-- `synthesizer.py` lines 27-33, `SynthesizedResponse` (latency and the
LLM usage metadata, pure observability, are omitted). -/
structure SynthesizedResponse where
  query : String
  answer : String
  contexts : List ContextDoc
deriving DecidableEq, Repr

/-- `synthesizer.py` lines 35-49, `to_sources`: the score shown is the
rerank score, falling back to the retrieval score, then to 0. -/
def SynthesizedResponse.to_sources (resp : SynthesizedResponse) : List SourceItem :=
  resp.contexts.map fun ctx =>
    { title := ctx.source
      score := (match ctx.rerank_score with
                | some s => some s
                | none => ctx.retrieval_score).getD 0
      content := ctx.content }

/-- The loop of `_filter_contexts` (`synthesizer.py` lines 64-74): walk the
(already truncated) list keeping a running character count, and `break` on
the first document that would push the total past `max_chars`. -/
def _filter_go (max_chars : Nat) : List ContextDoc → Nat → List ContextDoc
  | [], _ => []
  | d :: ds, used =>
    if used + d.content.length > max_chars then []
    else d :: _filter_go max_chars ds (used + d.content.length)

/-- `synthesizer.py` lines 51-74, `_filter_contexts`: keep at most `max_k`
documents and stop before the cumulative character count exceeds
`max_chars`; documents are always kept whole. -/
def _filter_contexts (contexts : List ContextDoc) (max_k : Nat) (max_chars : Nat) :
    List ContextDoc :=
  if contexts = [] then []
  else _filter_go max_chars (contexts.take max_k) 0

/-- `synthesizer.py` lines 181-196, `_detect_language`: "zh" when the raw
query holds a CJK Unified Ideograph (U+4E00..U+9FFF), else "en". -/
def _detect_language (raw_query : String) : String :=
  if raw_query = "" then "en"
  else if raw_query.any (fun c => 0x4e00 ≤ c.toNat ∧ c.toNat ≤ 0x9fff) then "zh"
  else "en"

/-- Synthesizer constructor configuration (`synthesizer.py` lines 77-99). -/
structure SynthConfig where
  max_contexts : Nat := 8
  max_context_chars : Nat := 12000
deriving DecidableEq, Repr

/-- `synthesizer.py` lines 115-177, `Synthesizer.synthesize`: filter the
reranked contexts under the top-k/character budget, detect the answer
language and call the completion endpoint once.  The prompt assembly of
`_build_messages` and the model call are abstracted into the oracle `llm`,
which receives exactly the budgeted contexts, the query and the detected
language; the answer is the model text stripped of surrounding blanks. -/
def synthesize (cfg : SynthConfig) (llm : List ContextDoc → String → String → String)
    (raw_query query : String) (rerank_result : RerankResult)
    (top_k : Option Nat := none) : SynthesizedResponse :=
  let k := top_k.getD cfg.max_contexts
  let filtered := _filter_contexts rerank_result.contexts k cfg.max_context_chars
  let lang := _detect_language raw_query
  { query := query
    answer := (llm filtered query lang).trim
    contexts := filtered }

end synthesizer

namespace query_analyzer

/-- The structured output of the intent-extraction chain
(`query_analyzer.py` lines 30-35, `QueryAnalysis`). -/
structure IntentOutput where
  keywords : List String
  query_type : String
  domain_areas : List String
  complexity : String
deriving DecidableEq, Repr

/-- The dict `QueryAnalyzer.analyze` returns (`query_analyzer.py`
lines 170-178 plus the keys added at lines 222-228). -/
structure AnalysisResults where
  original_query : String
  rewritten_query : String
  keywords : List String
  query_type : String
  domain_areas : List String
  complexity : String
  has_images : Bool
deriving DecidableEq, Repr

/-- `query_analyzer.py` lines 66-124, `QueryRewriter.rewrite`.  The chain
oracle yields `.error` when `rewrite_chain.invoke` raises (the `except`
returns the original query) and otherwise the optional `"text"` field of
the returned dict, read with `rewritten.get("text", query)`. -/
def rewrite (chain : Except Unit (Option String)) (query : String) : String :=
  match chain with
  | .error _ => query
  | .ok t => t.getD query

/-- `query_analyzer.py` lines 154-189, `IntentExtractor.analyze`: structured
extraction with all-default recovery (`keywords = []`, `query_type =
"unknown"`, `domain_areas = []`, `complexity = "medium"`) when the chain
raises or its output fails to parse. -/
def intent_analyze (chain : Except Unit IntentOutput) (query : String) : AnalysisResults :=
  match chain with
  | .ok res =>
    { original_query := ""
      rewritten_query := query
      keywords := res.keywords
      query_type := res.query_type
      domain_areas := res.domain_areas
      complexity := res.complexity
      has_images := false }
  | .error _ =>
    { original_query := ""
      rewritten_query := query
      keywords := []
      query_type := "unknown"
      domain_areas := []
      complexity := "medium"
      has_images := false }

/-- `query_analyzer.py` lines 200-240, `QueryAnalyzer.analyze`: rewrite the
query, extract intent from the rewritten query, then overwrite
`original_query`, `rewritten_query` and `has_images` on the result dict. -/
def analyze (rewrite_chain : Except Unit (Option String))
    (intent_chain : Except Unit IntentOutput)
    (query : String) (images : List String) : AnalysisResults :=
  let rewritten_query := rewrite rewrite_chain query
  let results := intent_analyze intent_chain rewritten_query
  { results with
      original_query := query
      rewritten_query := rewritten_query
      has_images := images.length > 0 }

end query_analyzer

namespace orchestrator

/-- Replace the value stored under `key` (Python's `d[key].append(...)`
updates the dict's stored list in place). -/
def set_key (d : List (String × router.RouteVal)) (key : String)
    (v : router.RouteVal) : List (String × router.RouteVal) :=
  d.map fun p => if p.1 = key then (p.1, v) else p

/-- `orchestrator.py` line 228:
`routing_results["selected_tools"].append("web_search")`.
A missing key raises `KeyError` whose `str()` is the quoted key; a stored
value that is not a list raises `AttributeError` when `.append` is looked
up.  The modelled exception payloads are those `str(e)` texts. -/
def append_web_search (routing_results : List (String × router.RouteVal)) :
    Except String (List (String × router.RouteVal)) :=
  match routing_results.lookup "selected_tools" with
  | none => .error "'selected_tools'"
  | some (router.RouteVal.strList l) =>
    .ok (set_key routing_results "selected_tools" (router.RouteVal.strList (l ++ ["web_search"])))
  | some _ => .error "AttributeError: 'str' object has no attribute 'append'"

/-- The caller-facing dict `AIAgent.run` returns.  The success path
(`orchestrator.py` lines 265-271) has no `error` key, modelled as `none`;
the `except` path (lines 284-289) fills it with `str(e)`. -/
structure RunResponse where
  answer : String
  sources : List synthesizer.SourceItem
  confidence : ℚ
  error : Option String
deriving DecidableEq, Repr

/-- The body of the `try` block of `AIAgent.run` (`orchestrator.py`
lines 183-271) as a sequence of stages, each an oracle that may raise:
query analysis (line 214, which in the source raises `TypeError` on the
keyword mismatch with `QueryAnalyzer.analyze` and `KeyError` on the
`time_related` / `domain_area` prints), routing plus the policy append of
line 228 (see `append_web_search`), retrieval-and-rerank, and synthesis. -/
def run_pipeline
    (analysis_stage : Except String query_analyzer.AnalysisResults)
    (routing_stage : query_analyzer.AnalysisResults →
      Except String (List (String × router.RouteVal)))
    (retrieval_stage : List (String × router.RouteVal) →
      query_analyzer.AnalysisResults → Except String RerankResult)
    (synthesis_stage : String → RerankResult →
      Except String synthesizer.SynthesizedResponse) :
    Except String (query_analyzer.AnalysisResults × synthesizer.SynthesizedResponse) := do
  let analysis_results ← analysis_stage
  let routing_results ← routing_stage analysis_results
  let reranked ← retrieval_stage routing_results analysis_results
  let final_answer ← synthesis_stage analysis_results.rewritten_query reranked
  pure (analysis_results, final_answer)

/-- `orchestrator.py` lines 170-289, `AIAgent.run`: the whole pipeline runs
inside one `try`; a successful pass returns the answer, `to_sources()` and
`confidence = 1.0` (lines 265-271), and any exception is converted at
lines 282-289 into the apology response with `confidence = 0.0`,
`sources = []` and the raw exception text under `error`. -/
def run
    (analysis_stage : Except String query_analyzer.AnalysisResults)
    (routing_stage : query_analyzer.AnalysisResults →
      Except String (List (String × router.RouteVal)))
    (retrieval_stage : List (String × router.RouteVal) →
      query_analyzer.AnalysisResults → Except String RerankResult)
    (synthesis_stage : String → RerankResult →
      Except String synthesizer.SynthesizedResponse) : RunResponse :=
  match run_pipeline analysis_stage routing_stage retrieval_stage synthesis_stage with
  | .ok (_, final_answer) =>
    { answer := final_answer.answer
      sources := final_answer.to_sources
      confidence := 1
      error := none }
  | .error e =>
    { answer := "Sorry, an error occurred while processing your query: " ++ e
      sources := []
      confidence := 0
      error := some e }

end orchestrator

namespace base_retriever

/-- Clamp a requested `top_k` to a positive value capped at 50. -/
def clamp_top_k (top_k : Int) : Int :=
  min 50 (max 1 top_k)

/-- Modelled from the spec: the new-generation `BaseRetriever.retrieve`
template method is absent from the source tree — `base_retriever.py` holds
only the stale asynchronous interface, while the concrete retrievers
(`hko_warnsum_retriever.py`, `finance_retriever.py`, `weather_retriever.py`,
…) import `BaseRetriever, RetrievedDocument` from it, implement `_retrieve`,
and the offline tests (`tests/test_retrievers_dummy.py`) exercise
`retriever.retrieve(query, top_k)` returning a `RetrievalResult`.  Per
design document §4.3 the wrapper must, before delegating to the
backend-specific `_retrieve`, reject an empty/whitespace-only query with
`ValueError`, clamp `top_k` to a positive value capped at 50, measure and
attach call latency, and (per the invariant of §3 and
`test_base_retriever_truncates_results`) truncate the documents to the
clamped `top_k`.  `backend` is the `_retrieve` hook, returning the document
list and call-level metadata; `latency` is the measured wall-clock time. -/
def retrieve
    (backend : String → Int → List RetrievedDocument × List (String × String))
    (provider : String) (latency : ℚ) (query : String) (top_k : Int) :
    Except String RetrievalResult :=
  if query.trim = "" then .error "ValueError: query must be a non-empty string"
  else
    let k := clamp_top_k top_k
    let out := backend query k
    .ok { query := query
          documents := out.1.take k.toNat
          provider := provider
          latency := some latency
          metadata := out.2 }

end base_retriever

/-- A one-document context pool whose document carries a retrieval score
(a concrete input used below). -/
def sample_pool : List ContextDoc := [⟨"a", "s", some 5, none⟩]

/-- A one-document context pool whose document has no retrieval score
(a concrete input used below). -/
def sample_pool_noscore : List ContextDoc := [⟨"a", "s", none, none⟩]

/-! ## Helper lemmas -/

/-- Both branches of the router's final fallback block produce the
three-key dict of `router.py` lines 222-226. -/
theorem router.finalize_lookup_selected_tools (bt : Option String) (r : String)
    (md : List (String × String)) :
    List.lookup "selected_tools" (router.finalize bt r md) = none ∧
      orchestrator.append_web_search (router.finalize bt r md) =
        .error "'selected_tools'" := by
  unfold router.finalize
  split <;> exact ⟨rfl, rfl⟩

/-- The chunked scoring loop scores every context once, in order: for a
positive batch size it is the plain map of the cross-encoder over the
pool. -/
theorem reranker._score_loop_eq_map (ce : String → String → ℚ) (q : String)
    {bs : Nat} (hbs : bs ≠ 0) :
    ∀ l : List ContextDoc, reranker._score_loop ce q bs l = l.map fun d => ce q d.content
  | [] => by simp [reranker._score_loop]
  | d :: ds => by
    rw [reranker._score_loop]
    rw [dif_neg hbs]
    rw [reranker._score_loop_eq_map ce q hbs ((d :: ds).drop bs)]
    rw [reranker._score_batch]
    conv_rhs => rw [← List.take_append_drop bs (d :: ds)]
    rw [List.map_append]
termination_by l => l.length
decreasing_by
  simp only [List.length_drop, List.length_cons]
  omega

/-- The fused score list is aligned with the context pool. -/
theorem reranker.fused_scores_length (r : Reranker) (ce : String → String → ℚ)
    (q : String) (hbs : r.batch_size ≠ 0) (l : List ContextDoc) :
    (reranker.fused_scores r ce q l).length = l.length := by
  unfold reranker.fused_scores
  split
  · simp [reranker._score_loop_eq_map ce q hbs]
  · simp [reranker._score_loop_eq_map ce q hbs]

/-- The scored pool rewrites every document of the pool once. -/
theorem reranker.scored_pool_length (r : Reranker) (ce : String → String → ℚ)
    (q : String) (hbs : r.batch_size ≠ 0) (l : List ContextDoc) :
    (reranker.scored_pool r ce q l).length = l.length := by
  unfold reranker.scored_pool
  rw [List.length_zipWith, reranker.fused_scores_length r ce q hbs l, Nat.min_self]

/-- Flattening counts exactly the documents with non-empty content. -/
theorem reranker.gather_raw_contexts_length (results : List RetrievalResult) :
    (reranker.gather_raw_contexts results).length =
      (results.map fun res => res.documents.countP fun d => decide (d.content ≠ "")).sum := by
  unfold reranker.gather_raw_contexts
  rw [List.length_flatMap]
  congr 1
  apply List.map_congr_left
  intro res _
  show (res.documents.filterMap _).length = _
  induction res.documents with
  | nil => simp
  | cons d ds ih =>
    by_cases h : d.content = "" <;>
      simp [List.filterMap_cons, List.countP_cons, h, ih]

/-- The reversed comparison used by the stable sort is transitive. -/
theorem reranker.doc_le_trans :
    ∀ a b c : ContextDoc, reranker.doc_le a b → reranker.doc_le b c → reranker.doc_le a c := by
  intro a b c hab hbc
  exact decide_eq_true (le_trans (of_decide_eq_true hbc) (of_decide_eq_true hab))

/-- The reversed comparison used by the stable sort is total. -/
theorem reranker.doc_le_total :
    ∀ a b : ContextDoc, reranker.doc_le a b || reranker.doc_le b a := by
  intro a b
  simp only [reranker.doc_le, Bool.or_eq_true, decide_eq_true_eq]
  exact le_total (reranker.key_of b) (reranker.key_of a)

/-- The context-budget loop returns the longest affordable initial segment:
it is a `take`, it never pushes the running character count past the
budget, and every initial segment that fits the budget is no longer. -/
theorem synthesizer._filter_go_spec (mc : Nat) :
    ∀ (l : List ContextDoc) (used : Nat),
      ∃ n, synthesizer._filter_go mc l used = l.take n ∧ n ≤ l.length ∧
        (used + ((l.take n).map fun d => d.content.length).sum ≤ mc ∨ n = 0) ∧
        ∀ m, m ≤ l.length →
          used + ((l.take m).map fun d => d.content.length).sum ≤ mc → m ≤ n := by
  intro l
  induction l with
  | nil =>
    intro used
    exact ⟨0, rfl, Nat.le_refl 0, Or.inr rfl, fun m hm _ => hm⟩
  | cons d ds ih =>
    intro used
    by_cases h : used + d.content.length > mc
    · refine ⟨0, by simp [synthesizer._filter_go, h], Nat.zero_le _, Or.inr rfl, ?_⟩
      intro m hm hbud
      rcases m with _ | m'
      · exact Nat.le_refl 0
      · rw [List.take_succ_cons, List.map_cons, List.sum_cons] at hbud
        omega
    · push_neg at h
      obtain ⟨n, hgo, hn, hbud, hmax⟩ := ih (used + d.content.length)
      refine ⟨n + 1, ?_, by simpa using Nat.succ_le_succ hn, ?_, ?_⟩
      · rw [List.take_succ_cons, ← hgo]
        simp only [synthesizer._filter_go]
        rw [if_neg (by omega)]
      · left
        rw [List.take_succ_cons, List.map_cons, List.sum_cons]
        rcases hbud with hb | hb0
        · omega
        · subst hb0
          simpa using h
      · intro m hm hbud2
        rcases m with _ | m'
        · exact Nat.zero_le _
        · rw [List.take_succ_cons, List.map_cons, List.sum_cons] at hbud2
          have := hmax m' (by simpa using hm) (by omega)
          omega

/-- A left fold by `min` is bounded by its initial value. -/
theorem reranker.foldl_min_le_init (l : List ℚ) (a : ℚ) : l.foldl min a ≤ a := by
  induction l generalizing a with
  | nil => exact le_refl a
  | cons x xs ih => exact le_trans (ih (min a x)) (min_le_left a x)

/-- A left fold by `min` is bounded by every list element. -/
theorem reranker.foldl_min_le_mem {x : ℚ} {l : List ℚ} (hx : x ∈ l) (a : ℚ) :
    l.foldl min a ≤ x := by
  induction l generalizing a with
  | nil => cases hx
  | cons y ys ih =>
    rcases List.mem_cons.mp hx with rfl | hmem
    · exact le_trans (reranker.foldl_min_le_init ys (min a x)) (min_le_right a x)
    · exact ih hmem (min a y)

/-- A left fold by `max` dominates its initial value. -/
theorem reranker.init_le_foldl_max (l : List ℚ) (a : ℚ) : a ≤ l.foldl max a := by
  induction l generalizing a with
  | nil => exact le_refl a
  | cons x xs ih => exact le_trans (le_max_left a x) (ih (max a x))

/-- A left fold by `max` dominates every list element. -/
theorem reranker.mem_le_foldl_max {x : ℚ} {l : List ℚ} (hx : x ∈ l) (a : ℚ) :
    x ≤ l.foldl max a := by
  induction l generalizing a with
  | nil => cases hx
  | cons y ys ih =>
    rcases List.mem_cons.mp hx with rfl | hmem
    · exact le_trans (le_max_right a x) (reranker.init_le_foldl_max ys (max a x))
    · exact ih hmem (max a y)

/-- `pool_lo` bounds every score of a non-empty pool from below. -/
theorem reranker.pool_lo_le {x : ℚ} {s : ℚ} {rest : List ℚ} (hx : x ∈ s :: rest) :
    reranker.pool_lo (s :: rest) ≤ x := by
  rcases List.mem_cons.mp hx with rfl | hmem
  · exact reranker.foldl_min_le_init rest x
  · exact reranker.foldl_min_le_mem hmem s

/-- `pool_hi` bounds every score of a non-empty pool from above. -/
theorem reranker.le_pool_hi {x : ℚ} {s : ℚ} {rest : List ℚ} (hx : x ∈ s :: rest) :
    x ≤ reranker.pool_hi (s :: rest) := by
  rcases List.mem_cons.mp hx with rfl | hmem
  · exact reranker.init_le_foldl_max rest x
  · exact reranker.mem_le_foldl_max hmem s

/-- A left fold by `min` is the initial value or a list element. -/
theorem reranker.foldl_min_mem (l : List ℚ) (a : ℚ) :
    l.foldl min a = a ∨ l.foldl min a ∈ l := by
  induction l generalizing a with
  | nil => exact Or.inl rfl
  | cons x xs ih =>
    rcases ih (min a x) with h | h
    · rcases min_choice a x with hax | hax
      · exact Or.inl (h.trans hax)
      · exact Or.inr (List.mem_cons.mpr (Or.inl (h.trans hax)))
    · exact Or.inr (List.mem_cons.mpr (Or.inr h))

/-- A left fold by `max` is the initial value or a list element. -/
theorem reranker.foldl_max_mem (l : List ℚ) (a : ℚ) :
    l.foldl max a = a ∨ l.foldl max a ∈ l := by
  induction l generalizing a with
  | nil => exact Or.inl rfl
  | cons x xs ih =>
    rcases ih (max a x) with h | h
    · rcases max_choice a x with hax | hax
      · exact Or.inl (h.trans hax)
      · exact Or.inr (List.mem_cons.mpr (Or.inl (h.trans hax)))
    · exact Or.inr (List.mem_cons.mpr (Or.inr h))

/-- `pool_lo` of a non-empty pool is one of its elements. -/
theorem reranker.pool_lo_mem (s : ℚ) (rest : List ℚ) :
    reranker.pool_lo (s :: rest) ∈ s :: rest := by
  rcases reranker.foldl_min_mem rest s with h | h
  · exact List.mem_cons.mpr (Or.inl h)
  · exact List.mem_cons.mpr (Or.inr h)

/-- `pool_hi` of a non-empty pool is one of its elements. -/
theorem reranker.pool_hi_mem (s : ℚ) (rest : List ℚ) :
    reranker.pool_hi (s :: rest) ∈ s :: rest := by
  rcases reranker.foldl_max_mem rest s with h | h
  · exact List.mem_cons.mpr (Or.inl h)
  · exact List.mem_cons.mpr (Or.inr h)

/-! ## Claims -/

/-- C1: the spec (and the rest of the orchestrator) expect the routing
decision to carry a `selected_tools` list to which the Orchestrator appends
"web_search"; the claim asserts this append always happens.  On the code it
never does: `Router.route` returns the key `selected_tool` (a single
string) in every branch, so `routing_results["selected_tools"]` at
`orchestrator.py` line 228 raises `KeyError` for every analysis result and
every oracle behaviour, and the web-search policy append never runs. -/
theorem C1_append_web_search_key_error :
    ∀ (tool_info : List (String × List String))
      (llm : Except String router.RoutingOutput)
      (meta : String → String → List (String × String))
      (analysis : router.AnalysisInput),
      List.lookup "selected_tools" (router.route tool_info llm meta analysis) = none ∧
        orchestrator.append_web_search (router.route tool_info llm meta analysis) =
          .error "'selected_tools'" := by
  intro tool_info llm meta analysis
  unfold router.route
  cases hfind : tool_info.find?
      (fun t => analysis.domain_areas.any fun d => t.2.contains (router.str_lower d)) with
  | some p =>
    obtain ⟨name, doms⟩ := p
    dsimp only
    exact router.finalize_lookup_selected_tools _ _ _
  | none =>
    dsimp only
    cases llm with
    | error e => exact ⟨rfl, rfl⟩
    | ok out =>
      dsimp only
      cases htruthy : router.py_truthy out.selected_tool with
      | true =>
        rw [if_pos rfl]
        exact router.finalize_lookup_selected_tools _ _ _
      | false =>
        rw [if_neg Bool.false_ne_true]
        exact router.finalize_lookup_selected_tools _ _ _

/-- C2: `AIAgent.run` is exception-safe: whenever the staged pipeline inside
its `try` block raises (modelled as the `Except.error` outcome of
`run_pipeline`), `run` returns the dictionary whose `answer` is the apology
string containing the exception text, whose `confidence` is 0.0, whose
`sources` is the empty list, and whose `error` field carries the raw
exception text. -/
theorem C2_run_converts_stage_errors
    (analysis_stage : Except String query_analyzer.AnalysisResults)
    (routing_stage : query_analyzer.AnalysisResults →
      Except String (List (String × router.RouteVal)))
    (retrieval_stage : List (String × router.RouteVal) →
      query_analyzer.AnalysisResults → Except String RerankResult)
    (synthesis_stage : String → RerankResult →
      Except String synthesizer.SynthesizedResponse)
    (e : String)
    (hfail : orchestrator.run_pipeline analysis_stage routing_stage retrieval_stage
      synthesis_stage = .error e) :
    orchestrator.run analysis_stage routing_stage retrieval_stage synthesis_stage =
      { answer := "Sorry, an error occurred while processing your query: " ++ e
        sources := []
        confidence := 0
        error := some e } := by
  unfold orchestrator.run
  rw [hfail]

/-- Witness for C2 at a concrete failing pipeline: the routing stage raises
the `KeyError` of `orchestrator.py` line 228. -/
theorem C2_witness_run_routing_failure :
    orchestrator.run (Except.ok ⟨"hi", "hi", [], "factual", [], "easy", false⟩)
        (fun _ => Except.error "'selected_tools'")
        (fun _ _ => Except.ok ⟨"q", []⟩)
        (fun _ _ => Except.ok ⟨"q", "ans", []⟩) =
      { answer := "Sorry, an error occurred while processing your query: " ++ "'selected_tools'"
        sources := []
        confidence := 0
        error := some "'selected_tools'" } :=
  C2_run_converts_stage_errors _ _ _ _ _ rfl

/-- Counterexample to C6 as stated: a query whose domain classification is
the generic "general" label matching no backend's declared domains, where
the LLM classification tier nevertheless picks the "finance" tool — the
Router then selects that specialized tool, not the web-search fallback. -/
theorem C6_counterexample_llm_selects_tool_on_general_domain :
    List.lookup "selected_tool"
        (router.route [("finance", ["finance"])]
          (Except.ok ⟨some "finance", "LLM picked finance"⟩)
          (fun _ _ => []) ⟨some "q", none, [], ["general"]⟩) =
      some (router.RouteVal.str "finance") ∧ "finance" ≠ "web_search" := by
  exact ⟨by decide, by decide⟩

/-- C6 (amended): `router.py` has no special case for the "general" label;
when the analyzed domains match no registered backend's declared domain
list AND the LLM classification tier declines (returns a null/empty tool or
raises), `Router.route` selects no specialized tool and defaults
`selected_tool` to "web_search". -/
theorem C6_amended_general_no_tool_when_llm_declines :
    ∀ (tool_info : List (String × List String))
      (llm : Except String router.RoutingOutput)
      (meta : String → String → List (String × String))
      (analysis : router.AnalysisInput),
      analysis.domain_areas = ["general"] →
      (∀ p ∈ tool_info, p.2.contains (router.str_lower "general") = false) →
      (∀ out, llm = .ok out → router.py_truthy out.selected_tool = false) →
      List.lookup "selected_tool" (router.route tool_info llm meta analysis) =
        some (router.RouteVal.str "web_search") := by
  intro tool_info llm meta analysis hdom hmatch hllm
  unfold router.route
  have hfind : tool_info.find?
      (fun t => analysis.domain_areas.any fun d => t.2.contains (router.str_lower d)) = none := by
    apply List.find?_eq_none.mpr
    intro p hp
    rw [hdom]
    simp only [List.any_cons, List.any_nil, Bool.or_false]
    rw [hmatch p hp]
    exact Bool.false_ne_true
  simp only [hfind]
  cases llm with
  | error e => rfl
  | ok out =>
    simp only [hllm out rfl, Bool.false_eq_true, if_false]
    rfl

/-- Witness for C6 (amended): one registered finance backend, a "general"
query and a declining LLM yield the web-search default. -/
theorem C6_witness_general_defaults_web_search :
    List.lookup "selected_tool"
        (router.route [("finance", ["finance"])] (Except.ok ⟨none, "no tool"⟩)
          (fun _ _ => []) ⟨some "q", none, [], ["general"]⟩) =
      some (router.RouteVal.str "web_search") :=
  C6_amended_general_no_tool_when_llm_declines _ _ _ _ rfl (by decide)
    (fun out h => by cases h; rfl)

/-- Counterexample to C8 as stated: when the rewrite chain returns an empty
model output (`{"text": ""}`), `rewritten.get("text", query)` passes the
empty string through, so `QueryAnalyzer.analyze` returns an analysis record
with an empty `rewritten_query` even for a non-empty query. -/
theorem C8_counterexample_empty_rewrite_text :
    ("hi" : String) ≠ "" ∧
      (query_analyzer.analyze (Except.ok (some "")) (Except.error ()) "hi"
        []).rewritten_query = "" := by
  exact ⟨by decide, rfl⟩

/-- C8 (amended): for every non-empty query, `QueryAnalyzer.analyze` returns
a record with a non-empty `rewritten_query` provided the rewrite chain does
not return an empty `"text"` value: a raised exception or a missing `"text"`
key falls back to the original query, but an empty model output is passed
through as-is. -/
theorem C8_amended_rewritten_query_nonempty :
    ∀ (rewrite_chain : Except Unit (Option String))
      (intent_chain : Except Unit query_analyzer.IntentOutput)
      (query : String) (images : List String),
      query ≠ "" →
      (∀ t, rewrite_chain = .ok (some t) → t ≠ "") →
      (query_analyzer.analyze rewrite_chain intent_chain query images).rewritten_query ≠ "" := by
  intro rewrite_chain intent_chain query images hq hr
  unfold query_analyzer.analyze query_analyzer.rewrite
  cases rewrite_chain with
  | error _ => simpa using hq
  | ok t =>
    cases t with
    | none => simpa using hq
    | some s => simpa using hr s rfl

/-- Witness for C8 (amended): a non-empty rewrite output yields a non-empty
`rewritten_query`. -/
theorem C8_witness_rewritten_query_nonempty :
    (query_analyzer.analyze (Except.ok (some "rewritten")) (Except.error ()) "hi"
      []).rewritten_query ≠ "" :=
  C8_amended_rewritten_query_nonempty _ _ _ _ (by decide)
    (fun t h => by cases h; decide)

/-- C3: the context list `Reranker.rerank` returns is the truncation to
`top_k` of the stably sorted scored pool: adjacent (indeed all) pairs are
descending in the final fused score (the sort key written back into
`rerank_score`), and any two documents of the scored pool in original order
whose keys are tied — more generally, already in descending order — keep
their relative order in the sorted pool (stability of the sort). -/
theorem C3_rerank_sorted_stable_truncated :
    ∀ (r : Reranker) (ce : String → String → ℚ) (q : String)
      (contexts : List ContextDoc) (top_k : Nat),
      ((reranker.rerank r ce q contexts top_k).contexts =
        (reranker.sorted_pool r ce q contexts).take top_k) ∧
      ((reranker.rerank r ce q contexts top_k).contexts.Pairwise
        fun a b => reranker.key_of b ≤ reranker.key_of a) ∧
      (∀ a b : ContextDoc, reranker.key_of b ≤ reranker.key_of a →
        List.Sublist [a, b] (reranker.scored_pool r ce q contexts) →
        List.Sublist [a, b] (reranker.sorted_pool r ce q contexts)) := by
  intro r ce q contexts top_k
  have h1 : (reranker.rerank r ce q contexts top_k).contexts =
      (reranker.sorted_pool r ce q contexts).take top_k := by
    unfold reranker.rerank
    split
    · next h => subst h; simp [reranker.sorted_pool, reranker.scored_pool]
    · rfl
  refine ⟨h1, ?_, ?_⟩
  · rw [h1]
    apply List.Pairwise.sublist (List.take_sublist _ _)
    have hsorted := List.sorted_mergeSort reranker.doc_le_trans reranker.doc_le_total
      (reranker.scored_pool r ce q contexts)
    exact hsorted.imp fun hab => of_decide_eq_true hab
  · intro a b hab hsub
    exact List.pair_sublist_mergeSort reranker.doc_le_trans reranker.doc_le_total
      (decide_eq_true hab) hsub

/-- C4: for every `RetrievalResult` list fed through `rerank_from_results`,
the returned context list length is `min top_k n` where `n` counts the
contained documents with non-empty content; an empty candidate pool
short-circuits to the empty result independently of the scoring model. -/
theorem C4_rerank_from_results_length :
    ∀ (r : Reranker) (ce : String → String → ℚ) (q : String)
      (results : List RetrievalResult) (top_k : Nat),
      r.batch_size ≠ 0 →
      ((reranker.rerank_from_results r ce q results top_k).contexts.length =
        min top_k
          ((results.map fun res =>
            res.documents.countP fun d => decide (d.content ≠ "")).sum)) ∧
      (∀ ce', reranker.rerank r ce' q [] top_k = { query := q, contexts := [] }) := by
  intro r ce q results k hbs
  constructor
  · unfold reranker.rerank_from_results
    rw [← reranker.gather_raw_contexts_length]
    generalize reranker.gather_raw_contexts results = l
    unfold reranker.rerank
    split
    · next h => subst h; simp
    · show ((reranker.sorted_pool r ce q l).take k).length = _
      rw [List.length_take]
      unfold reranker.sorted_pool
      rw [List.length_mergeSort, reranker.scored_pool_length r ce q hbs l]
  · intro ce'
    rfl

/-- Witness for C4 at the empty pool: the result is empty and does not
depend on the scoring oracle. -/
theorem C4_witness_empty_pool :
    reranker.rerank ⟨true, 7/10, 16⟩ (fun _ _ => 1) "q" [] 5 =
      { query := "q", contexts := [] } :=
  (C4_rerank_from_results_length ⟨true, 7/10, 16⟩ (fun _ _ => 0) "q" [] 5 (by decide)).2
    (fun _ _ => 1)

/-- Counterexample to C5 as stated: in the pool
`[{retrieval_score := 5}, {retrieval_score := none}]` all present scores
are equal, so `_normalize_retrieval_scores` takes its uniform branch and
the document with the missing native score is normalized to 1.0 — it is
not treated as score 0 during fusion. -/
theorem C5_counterexample_missing_score_normalized_to_one :
    reranker._normalize_retrieval_scores
        [{ content := "a", source := "s1", retrieval_score := some 5 },
         { content := "b", source := "s2", retrieval_score := none }] 1 = 1 ∧
      reranker._normalize_retrieval_scores
        [{ content := "a", source := "s1", retrieval_score := some 5 },
         { content := "b", source := "s2", retrieval_score := none }] 1 ≠ 0 := by
  constructor
  · norm_num [reranker._normalize_retrieval_scores, List.filterMap_cons,
      reranker.pool_lo, reranker.pool_hi]
  · norm_num [reranker._normalize_retrieval_scores, List.filterMap_cons,
      reranker.pool_lo, reranker.pool_hi]

/-- C5 (amended): retrieval scores are normalized linearly to [0,1] across
the pool — uniformly 0.0 when no score is present, uniformly 1.0 when the
present scores all coincide (within the 1e-9 guard), and
`(s - lo)/(hi - lo)` otherwise, where a document with a missing native
score is normalized to 0 only in that spanning branch (in the uniform
branches it receives the uniform value, 1.0 included) — and the final score
of document `i` is `alpha * relevance_i + (1 - alpha) * normalized_i`. -/
theorem C5_amended_normalization_and_fusion :
    ∀ (contexts : List ContextDoc) (r : Reranker) (ce : String → String → ℚ)
      (q : String),
      r.batch_size ≠ 0 → r.use_retrieval_score = true →
      ((contexts.filterMap (·.retrieval_score) = [] →
        ∀ i, reranker._normalize_retrieval_scores contexts i = 0) ∧
      ((∀ s ∈ contexts.filterMap (·.retrieval_score),
        ∀ t ∈ contexts.filterMap (·.retrieval_score), s = t) →
        contexts.filterMap (·.retrieval_score) ≠ [] →
        ∀ i, reranker._normalize_retrieval_scores contexts i = 1) ∧
      (∀ i d, contexts.get? i = some d →
        (0 ≤ reranker._normalize_retrieval_scores contexts i ∧
          reranker._normalize_retrieval_scores contexts i ≤ 1) ∧
        (¬ (reranker.pool_hi (contexts.filterMap (·.retrieval_score)) -
              reranker.pool_lo (contexts.filterMap (·.retrieval_score)) <
              1/1000000000) →
          (d.retrieval_score = none →
            reranker._normalize_retrieval_scores contexts i = 0) ∧
          (∀ sc, d.retrieval_score = some sc →
            reranker._normalize_retrieval_scores contexts i =
              (sc - reranker.pool_lo (contexts.filterMap (·.retrieval_score))) /
                (reranker.pool_hi (contexts.filterMap (·.retrieval_score)) -
                  reranker.pool_lo (contexts.filterMap (·.retrieval_score)))))) ∧
      (∀ i d, contexts.get? i = some d →
        (reranker.fused_scores r ce q contexts).get? i =
          some (r.alpha * ce q d.content +
            (1 - r.alpha) * reranker._normalize_retrieval_scores contexts i))) := by
  intro contexts r ce q hbs huse
  refine ⟨?_, ?_, ?_, ?_⟩
  · intro h0 i
    simp only [reranker._normalize_retrieval_scores]
    rw [h0]
  · intro hall hne i
    cases hF : contexts.filterMap (·.retrieval_score) with
    | nil => exact absurd hF hne
    | cons s rest =>
      simp only [reranker._normalize_retrieval_scores]
      rw [hF]
      dsimp only
      rw [if_pos ?_]
      have hhi : reranker.pool_hi (s :: rest) ∈ s :: rest := reranker.pool_hi_mem s rest
      have hlo : reranker.pool_lo (s :: rest) ∈ s :: rest := reranker.pool_lo_mem s rest
      rw [hF] at hall
      rw [hall _ hhi _ hlo]
      norm_num
  · intro i d hget
    cases hF : contexts.filterMap (·.retrieval_score) with
    | nil =>
      have h0 : reranker._normalize_retrieval_scores contexts i = 0 := by
        simp only [reranker._normalize_retrieval_scores]
        rw [hF]
      refine ⟨by rw [h0]; norm_num, fun hspan => absurd ?_ hspan⟩
      norm_num [reranker.pool_lo, reranker.pool_hi]
    | cons s rest =>
      by_cases hcl : reranker.pool_hi (s :: rest) - reranker.pool_lo (s :: rest) <
          1/1000000000
      · have h1 : reranker._normalize_retrieval_scores contexts i = 1 := by
          simp only [reranker._normalize_retrieval_scores]
          rw [hF]
          dsimp only
          rw [if_pos hcl]
        exact ⟨by rw [h1]; norm_num, fun hspan => absurd hcl hspan⟩
      · have hpos : 0 < reranker.pool_hi (s :: rest) - reranker.pool_lo (s :: rest) := by
          have := not_lt.mp hcl
          linarith
        have hnorm : reranker._normalize_retrieval_scores contexts i =
            match d.retrieval_score with
            | none => 0
            | some sc => (sc - reranker.pool_lo (s :: rest)) /
                (reranker.pool_hi (s :: rest) - reranker.pool_lo (s :: rest)) := by
          simp only [reranker._normalize_retrieval_scores]
          rw [hF]
          dsimp only
          rw [if_neg hcl]
          rw [hget]
          rfl
        cases hsc : d.retrieval_score with
        | none =>
          have hnorm0 : reranker._normalize_retrieval_scores contexts i = 0 := by
            rw [hnorm, hsc]
          refine ⟨by rw [hnorm0]; norm_num, fun hspan => ⟨fun _ => hnorm0, ?_⟩⟩
          intro sc hsc2
          cases hsc2
        | some sc =>
          have hnormS : reranker._normalize_retrieval_scores contexts i =
              (sc - reranker.pool_lo (s :: rest)) /
                (reranker.pool_hi (s :: rest) - reranker.pool_lo (s :: rest)) := by
            rw [hnorm, hsc]
          have hmem : sc ∈ s :: rest := by
            rw [← hF]
            exact List.mem_filterMap.mpr ⟨d, List.get?_mem hget, hsc⟩
          have hlo := reranker.pool_lo_le hmem
          have hhi := reranker.le_pool_hi hmem
          refine ⟨⟨?_, ?_⟩, fun hspan => ⟨fun hnone => ?_, fun sc2 hsc2 => ?_⟩⟩
          · rw [hnormS]
            apply div_nonneg _ (le_of_lt hpos)
            linarith
          · rw [hnormS]
            rw [div_le_one hpos]
            linarith
          · cases hnone
          · injection hsc2 with hsc3
            subst hsc3
            exact hnormS
  · intro i d hget
    simp only [reranker.fused_scores, huse, if_true]
    rw [reranker._score_loop_eq_map ce q hbs]
    rw [List.get?_map, List.get?_enum, List.get?_map, hget]
    rfl

/-- Witness for C5 (amended) at a concrete one-document pool: the fused
score at index 0 is the convex combination of the cross-encoder score and
the normalized retrieval score. -/
theorem C5_witness_fused_formula :
    (reranker.fused_scores ⟨true, 7/10, 16⟩ (fun _ _ => 1) "q" sample_pool).get? 0 =
      some ((7/10) * 1 +
        (1 - 7/10) * reranker._normalize_retrieval_scores sample_pool 0) :=
  (C5_amended_normalization_and_fusion sample_pool ⟨true, 7/10, 16⟩ (fun _ _ => 1) "q"
      (by decide) rfl).2.2.2 0 ⟨"a", "s", some 5, none⟩ rfl

/-- Counterexample to C10 as stated: on a one-document pool whose document
has no retrieval score (all native scores missing), `reranker.py` fuses
`alpha * ce + (1 - alpha) * 0` while `reranker1.py` skips fusion and keeps
the raw cross-encoder score, so with the default configuration
(`alpha = 0.7`) and a scorer returning 1 the two modules assign different
rerank scores to the same document. -/
theorem C10_counterexample_fusion_divergence :
    (reranker.rerank ⟨true, 7/10, 16⟩ (fun _ _ => 1) "q" sample_pool_noscore 8).contexts =
        [⟨"a", "s", none, some (7/10)⟩] ∧
      (reranker1.rerank ⟨true, 7/10, 16⟩ (fun _ _ => 1) "q" sample_pool_noscore 8).contexts =
        [⟨"a", "s", none, some 1⟩] ∧
      reranker.rerank ⟨true, 7/10, 16⟩ (fun _ _ => 1) "q" sample_pool_noscore 8 ≠
        reranker1.rerank ⟨true, 7/10, 16⟩ (fun _ _ => 1) "q" sample_pool_noscore 8 := by
  have h1 : (reranker.rerank ⟨true, 7/10, 16⟩ (fun _ _ => 1) "q"
      sample_pool_noscore 8).contexts = [⟨"a", "s", none, some (7/10)⟩] := by
    norm_num [reranker.rerank, reranker.sorted_pool, reranker.scored_pool,
      reranker.fused_scores, reranker._score_loop, reranker._score_batch,
      reranker._normalize_retrieval_scores, sample_pool_noscore]
  have h2 : (reranker1.rerank ⟨true, 7/10, 16⟩ (fun _ _ => 1) "q"
      sample_pool_noscore 8).contexts = [⟨"a", "s", none, some 1⟩] := by
    norm_num [reranker1.rerank, reranker1.sorted_pool, reranker1.scored_pool,
      reranker1.fused_scores, reranker._score_loop, reranker._score_batch,
      sample_pool_noscore]
  refine ⟨h1, h2, fun he => ?_⟩
  have hc := congrArg RerankResult.contexts he
  rw [h1, h2] at hc
  have hd := List.head_eq_of_cons_eq hc
  have hs := congrArg ContextDoc.rerank_score hd
  simp only [Option.some.injEq] at hs
  norm_num at hs

/-- C10 (amended): the two coexisting reranker modules agree — same ordered
context list, same written-back rerank scores — whenever score fusion is
disabled (`use_retrieval_score = False`); with fusion enabled they diverge
(all-missing and all-equal score pools are normalized differently). -/
theorem C10_amended_equivalent_without_fusion :
    ∀ (r : Reranker) (ce : String → String → ℚ) (query : String)
      (contexts : List ContextDoc) (top_k : Nat),
      r.use_retrieval_score = false →
      reranker.rerank r ce query contexts top_k =
        reranker1.rerank r ce query contexts top_k := by
  intro r ce query contexts top_k hfuse
  unfold reranker.rerank reranker1.rerank
  unfold reranker.sorted_pool reranker1.sorted_pool
  unfold reranker.scored_pool reranker1.scored_pool
  unfold reranker.fused_scores reranker1.fused_scores
  rw [hfuse]
  simp only [Bool.false_eq_true, if_false]

/-- Witness for C10 (amended) at a concrete fusion-disabled configuration. -/
theorem C10_witness_equivalent_without_fusion :
    reranker.rerank ⟨false, 7/10, 16⟩ (fun _ _ => 1) "q" sample_pool 8 =
      reranker1.rerank ⟨false, 7/10, 16⟩ (fun _ _ => 1) "q" sample_pool 8 :=
  C10_amended_equivalent_without_fusion ⟨false, 7/10, 16⟩ (fun _ _ => 1) "q"
    sample_pool 8 rfl

/-- C7: the Synthesizer's context filtering keeps an initial segment of the
reranked contexts — whole documents, verbatim, in order — of at most
`max_k` documents whose total character count never exceeds `max_chars`,
and it is greedy: any initial segment within both budgets is no longer than
the one selected.  `Synthesizer.synthesize` returns exactly this selection
as the `contexts` of its `SynthesizedResponse`. -/
theorem C7_filter_contexts_greedy_whole_docs :
    ∀ (contexts : List ContextDoc) (max_k max_chars : Nat),
      (∃ n, synthesizer._filter_contexts contexts max_k max_chars = contexts.take n ∧
        n ≤ max_k ∧
        ((contexts.take n).map fun d => d.content.length).sum ≤ max_chars ∧
        ∀ m, m ≤ max_k → m ≤ contexts.length →
          ((contexts.take m).map fun d => d.content.length).sum ≤ max_chars → m ≤ n) ∧
      (∀ (cfg : synthesizer.SynthConfig)
        (llm : List ContextDoc → String → String → String)
        (raw_query query : String) (rr : RerankResult) (top_k : Option Nat),
        (synthesizer.synthesize cfg llm raw_query query rr top_k).contexts =
          synthesizer._filter_contexts rr.contexts (top_k.getD cfg.max_contexts)
            cfg.max_context_chars) := by
  intro contexts max_k mc
  constructor
  · by_cases hnil : contexts = []
    · subst hnil
      exact ⟨0, by simp [synthesizer._filter_contexts], Nat.zero_le _, by simp,
        fun m _ hm _ => by simpa using hm⟩
    · obtain ⟨n, hgo, hn, hbud, hmax⟩ := synthesizer._filter_go_spec mc (contexts.take max_k) 0
      have hlen : (contexts.take max_k).length = min max_k contexts.length :=
        List.length_take _ _
      have hnk : n ≤ max_k := le_trans hn (by rw [hlen]; exact min_le_left _ _)
      have htt : (contexts.take max_k).take n = contexts.take n := by
        rw [List.take_take, Nat.min_eq_left hnk]
      refine ⟨n, ?_, hnk, ?_, ?_⟩
      · unfold synthesizer._filter_contexts
        rw [if_neg hnil, hgo, htt]
      · rcases hbud with hb | hb0
        · rw [htt] at hb
          omega
        · subst hb0
          simp
      · intro m hmk hml hbudm
        have hmlen : m ≤ (contexts.take max_k).length := by
          rw [hlen]
          exact le_min hmk hml
        have htm : (contexts.take max_k).take m = contexts.take m := by
          rw [List.take_take, Nat.min_eq_left hmk]
        exact hmax m hmlen (by rw [htm]; omega)
  · intro cfg llm raw_query query rr top_k
    rfl

/-- C9: the (spec-modelled) `BaseRetriever.retrieve` wrapper rejects an
empty or whitespace-only query with `ValueError` before the backend hook
runs — the error outcome does not depend on the backend — and the `top_k`
actually passed to the backend is `clamp_top_k top_k`, a positive value no
greater than 50. -/
theorem C9_retrieve_validates_query_and_clamps_top_k :
    ∀ (backend : String → Int → List RetrievedDocument × List (String × String))
      (provider : String) (latency : ℚ) (query : String) (top_k : Int),
      (query.trim = "" →
        base_retriever.retrieve backend provider latency query top_k =
          .error "ValueError: query must be a non-empty string") ∧
      (1 ≤ base_retriever.clamp_top_k top_k ∧ base_retriever.clamp_top_k top_k ≤ 50) ∧
      (query.trim ≠ "" →
        base_retriever.retrieve backend provider latency query top_k =
          .ok { query := query
                documents := (backend query (base_retriever.clamp_top_k top_k)).1.take
                  (base_retriever.clamp_top_k top_k).toNat
                provider := provider
                latency := some latency
                metadata := (backend query (base_retriever.clamp_top_k top_k)).2 }) := by
  intro backend provider latency query top_k
  refine ⟨fun h => ?_, ⟨?_, ?_⟩, fun h => ?_⟩
  · simp [base_retriever.retrieve, h]
  · exact le_min (by norm_num) (le_max_left 1 top_k)
  · exact min_le_left 50 (max 1 top_k)
  · simp [base_retriever.retrieve, h]
